import Mathlib

/-!
Verification development for the `shaan-cloudflare-worker` repository: an
edge cache that stores blog articles in a key-value store.  The worker
exposes three operations: refresh the store from an upstream API
(`updateKVStore`), read the article-summary list (`fetchArticleList`), and
read one article by slug (`fetchArticleBySlug`).

The embedding is faithful to `src/index.ts`: serialization is
`JSON.stringify` rendered field-by-field in declaration order, the store is
a partial map from string keys to string values, and each request handler
is a pure function of the store state plus an explicit model of the
external collaborators (upstream HTTP result, per-key put/get failure
injection for the KV runtime).
-/

/-- The canonical article record, with the snake_case fields of the
upstream API (`src/index.ts`, interface `Article`). -/
structure Article where
  id : Int
  created_at : String
  updated_at : String
  slug : String
  title : String
  description : Option String
  body : String
  author_full_name : Option String
  cover_img_src : Option String
  cover_img_alt : Option String
  is_active : Bool
  published_date : String
deriving Repr, DecidableEq

/-- The summary projection built by `storeArticleListSummary`: exactly the
seven fields the code copies (id, slug, title, description, cover_img_src,
cover_img_alt, published_date). -/
structure ArticleSummary where
  id : Int
  slug : String
  title : String
  description : Option String
  cover_img_src : Option String
  cover_img_alt : Option String
  published_date : String
deriving Repr, DecidableEq

/-- JSON string literal (escaping is not modelled; slugs and titles are
treated as JSON-safe, which is what the worker assumes as well). -/
def jstr (s : String) : String := "\x22" ++ s ++ "\x22"

/-- JSON rendering of a nullable string field. -/
def jopt : Option String → String
  | none => "null"
  | some s => jstr s

/-- JSON rendering of a boolean. -/
def jbool : Bool → String
  | true => "true"
  | false => "false"

/-- One `"key":value` member of a JSON object. -/
def jfield (k v : String) : String := jstr k ++ ":" ++ v

/-- Model of `JSON.stringify(article)`: all twelve fields, in declaration order,
as produced by `storeArticlesInKV`. -/
def serializeArticle (a : Article) : String :=
  "\x7b" ++ String.intercalate ","
    [ jfield "id" (toString a.id)
    , jfield "created_at" (jstr a.created_at)
    , jfield "updated_at" (jstr a.updated_at)
    , jfield "slug" (jstr a.slug)
    , jfield "title" (jstr a.title)
    , jfield "description" (jopt a.description)
    , jfield "body" (jstr a.body)
    , jfield "author_full_name" (jopt a.author_full_name)
    , jfield "cover_img_src" (jopt a.cover_img_src)
    , jfield "cover_img_alt" (jopt a.cover_img_alt)
    , jfield "is_active" (jbool a.is_active)
    , jfield "published_date" (jstr a.published_date)
    ] ++ "\x7d"

/-- The projection `storeArticleListSummary` applies to each article. -/
def summaryOf (a : Article) : ArticleSummary :=
  { id := a.id
  , slug := a.slug
  , title := a.title
  , description := a.description
  , cover_img_src := a.cover_img_src
  , cover_img_alt := a.cover_img_alt
  , published_date := a.published_date }

/-- Model of `JSON.stringify` of one summary object. -/
def serializeSummary (s : ArticleSummary) : String :=
  "\x7b" ++ String.intercalate ","
    [ jfield "id" (toString s.id)
    , jfield "slug" (jstr s.slug)
    , jfield "title" (jstr s.title)
    , jfield "description" (jopt s.description)
    , jfield "cover_img_src" (jopt s.cover_img_src)
    , jfield "cover_img_alt" (jopt s.cover_img_alt)
    , jfield "published_date" (jstr s.published_date)
    ] ++ "\x7d"

/-- Model of `JSON.stringify(articles.map(projection))`: a JSON array of the
summary objects, order preserved. -/
def serializeSummaryList (articles : List Article) : String :=
  "[" ++ String.intercalate "," ((articles.map summaryOf).map serializeSummary) ++ "]"

/-- The KV namespace as a partial map from keys to stored strings. -/
def Store : Type := String → Option String

/-- Effect of `ARTICLES_KV.put(k, v)` on a store value. -/
def kvPut (k v : String) (σ : Store) : Store :=
  fun k' => if k' = k then some v else σ k'

/-- The key `storeArticlesInKV` derives for a slug: `` `article-${slug}` ``. -/
def articleKey (slug : String) : String := "article-" ++ slug

/-- The fixed key used for the summary list. -/
def summaryKey : String := "articles-summary"

/-- An HTTP response as the worker builds it: status and body. -/
structure HttpResponse where
  status : Nat
  body : String
deriving Repr, DecidableEq

/-- Outcome that the external `fetch` of the upstream API can have:
a parsed article set, a non-success HTTP status, a network error, or a
payload that fails to parse. -/
inductive UpstreamResult where
  | success (articles : List Article)
  | httpError (status : Nat)
  | networkError (msg : String)
  | parseError (msg : String)
deriving Repr

/-- Embedding of `fetchArticlesFromAPI`: returns the parsed set, or throws (modelled as
`Except.error` carrying the message of the thrown `Error`).  On a
non-success status it throws `` `API responded with status ${status}` ``. -/
def fetchArticlesFromAPI : UpstreamResult → Except String (List Article)
  | .success articles => .ok articles
  | .httpError s => .error ("API responded with status " ++ toString s)
  | .networkError m => .error m
  | .parseError m => .error m

/-- Result of one bulk-write helper: the updated store, the keys of the
`put` calls it issued, and whether all of them succeeded. -/
structure WriteResult where
  store : Store
  attempts : List String
  ok : Bool

/-- Per-key failure injection for `ARTICLES_KV.put`: `pf k = true` means
the put promise for key `k` rejects.  (A rejected put stores nothing.) -/
def PutFails : Type := String → Bool

/-- Embedding of `storeArticlesInKV`: fires one put per article (all promises are
created, so every key is attempted even when some fail), each storing the
serialized full record under `article-<slug>`.  `Promise.all` succeeds iff
every put succeeds. -/
def storeArticlesInKV (articles : List Article) (σ : Store) ( pf : PutFails) :
    WriteResult :=
  { store := articles.foldl
      (fun s a =>
        if pf (articleKey a.slug) then s
        else kvPut (articleKey a.slug) (serializeArticle a) s) σ
  , attempts := articles.map (fun a => articleKey a.slug)
  , ok := articles.all (fun a => ! pf (articleKey a.slug)) }

/-- Embedding of `storeArticleListSummary`: one put of the serialized summary list under
the fixed key `articles-summary`. -/
def storeArticleListSummary (articles : List Article) (σ : Store) ( pf : PutFails) :
    WriteResult :=
  { store :=
      if pf summaryKey then σ
      else kvPut summaryKey (serializeSummaryList articles) σ
  , attempts := [summaryKey]
  , ok := ! pf summaryKey }

/-- Embedding of `updateKVStore`: fetch, then `await storeArticlesInKV`, then
`await storeArticleListSummary`; any thrown error is caught and becomes a
500 response with the error's message (`putErrMsg` stands for the message
of a rejected KV put, which the runtime supplies).  Returns the response,
the final store, and the list of put attempts in the order they were
issued. -/
def updateKVStore (up : UpstreamResult) (σ : Store) ( pf : PutFails)
    (putErrMsg : String) : HttpResponse × Store × List String :=
  match fetchArticlesFromAPI up with
  | .error m => (⟨500, "Error updating KV Store: " ++ m⟩, σ, [])
  | .ok articles =>
    let r1 := storeArticlesInKV articles σ pf
    if r1.ok then
      let r2 := storeArticleListSummary articles r1.store pf
      if r2.ok then
        (⟨200, "KV Store Updated"⟩, r2.store, r1.attempts ++ r2.attempts)
      else
        (⟨500, "Error updating KV Store: " ++ putErrMsg⟩, r2.store,
          r1.attempts ++ r2.attempts)
    else
      (⟨500, "Error updating KV Store: " ++ putErrMsg⟩, r1.store, r1.attempts)

/-- Per-key failure injection for `ARTICLES_KV.get`: `gf k = true` means
the get for key `k` throws (store unreachable). -/
def GetFails : Type := String → Bool

/-- Embedding of `fetchArticleList`: reads the summary key; a missing (or empty, JS
falsiness) value makes the handler throw, and its own catch block turns
every failure — missing key or unreachable store alike — into the same
500 response.  Reads never write, so the store is returned unchanged. -/
def fetchArticleList (σ : Store) (gf : GetFails) : HttpResponse × Store :=
  if gf summaryKey then (⟨500, "Failed to fetch article list"⟩, σ)
  else
    match σ summaryKey with
    | none => (⟨500, "Failed to fetch article list"⟩, σ)
    | some s =>
      if s = "" then (⟨500, "Failed to fetch article list"⟩, σ)
      else (⟨200, s⟩, σ)

/-- Embedding of `fetchArticleBySlug`: reads `article-<slug>`; a missing (or empty)
value yields 404 `Article not found`, a get that throws yields 500
`Internal Server Error`.  Reads never write. -/
def fetchArticleBySlug (slug : String) (σ : Store) (gf : GetFails) :
    HttpResponse × Store :=
  if gf (articleKey slug) then (⟨500, "Internal Server Error"⟩, σ)
  else
    match σ (articleKey slug) with
    | none => (⟨404, "Article not found"⟩, σ)
    | some s =>
      if s = "" then (⟨404, "Article not found"⟩, σ)
      else (⟨200, s⟩, σ)

/-- The empty store (no refresh has ever run). -/
def emptyStore : Store := fun _ => none

/-- No injected put failures: every KV put succeeds. -/
def noPutFail : PutFails := fun _ => false

/-- No injected get failures: the store is reachable on every get. -/
def noGetFail : GetFails := fun _ => false

/-- Store reached after a refresh that fetched `articles` with every put
succeeding. -/
def refreshStore (articles : List Article) (σ : Store) : Store :=
  (updateKVStore (.success articles) σ noPutFail "").2.1

/-- Sequential application of a list of key-value puts (left to right). -/
def applyPuts (l : List (String × String)) (σ : Store) : Store :=
  l.foldl (fun s p => kvPut p.1 p.2 s) σ

/-- The value of the last put in `l` that targets key `k`, if any. -/
def lastPut (l : List (String × String)) (k : String) : Option String :=
  l.foldl (fun acc p => if p.1 = k then some p.2 else acc) none

theorem lastPut_foldl_acc (l : List (String × String)) (k : String) :
    ∀ acc : Option String,
      l.foldl (fun acc p => if p.1 = k then some p.2 else acc) acc
        = (lastPut l k).or acc := by
  induction l with
  | nil => intro acc; simp [lastPut]
  | cons p t ih =>
    intro acc
    show t.foldl _ (if p.1 = k then some p.2 else acc) = _
    rw [ih]
    show _ = (t.foldl _ (if p.1 = k then some p.2 else none)).or acc
    rw [ih]
    rcases lastPut t k with _ | w
    · by_cases h : p.1 = k <;> simp [h]
    · simp

theorem applyPuts_apply (l : List (String × String)) (σ : Store) (k : String) :
    applyPuts l σ k = (lastPut l k).or (σ k) := by
  induction l generalizing σ with
  | nil => simp [applyPuts, lastPut]
  | cons p t ih =>
    show applyPuts t (kvPut p.1 p.2 σ) k = _
    rw [ih]
    have hl : lastPut (p :: t) k
        = (lastPut t k).or (if p.1 = k then some p.2 else none) := by
      show t.foldl _ (if p.1 = k then some p.2 else none) = _
      rw [lastPut_foldl_acc]
    rw [hl]
    rcases lastPut t k with _ | w
    · by_cases h : p.1 = k
      · subst h; simp [kvPut]
      · simp [kvPut, h, Ne.symm h]
    · simp

theorem applyPuts_idem (l : List (String × String)) (σ : Store) :
    applyPuts l (applyPuts l σ) = applyPuts l σ := by
  funext k
  rw [applyPuts_apply, applyPuts_apply]
  rcases lastPut l k with _ | w <;> simp

theorem lastPut_append (l l' : List (String × String)) (k : String) :
    lastPut (l ++ l') k = (lastPut l' k).or (lastPut l k) := by
  show (l ++ l').foldl _ none = _
  rw [List.foldl_append, lastPut_foldl_acc]
  rfl

theorem applyPuts_of_lastPut_none (l : List (String × String)) (σ : Store)
    (k : String) (h : lastPut l k = none) : applyPuts l σ k = σ k := by
  rw [applyPuts_apply, h]; rfl

theorem articleKey_inj {s t : String} (h : articleKey s = articleKey t) :
    s = t := by
  have hd := congrArg String.data h
  rw [articleKey, articleKey, String.data_append, String.data_append] at hd
  have := List.append_cancel_left hd
  exact String.ext this

theorem articleKey_ne_summaryKey (s : String) : articleKey s ≠ summaryKey := by
  intro h
  have hd := congrArg String.data h
  rw [articleKey, String.data_append] at hd
  have ht := List.take_left ("article-".data) s.data
  rw [hd] at ht
  exact absurd ht (by decide)

theorem head_append_ne_empty (p s : String) (hp : p.length ≠ 0) :
    p ++ s ≠ "" := by
  intro h
  have hl := congrArg String.length h
  rw [String.length_append] at hl
  have h0 : ("" : String).length = 0 := rfl
  omega

theorem serializeArticle_ne_empty (a : Article) : serializeArticle a ≠ "" := by
  rw [serializeArticle, String.append_assoc]
  exact head_append_ne_empty _ _ (by decide)

theorem serializeSummaryList_ne_empty (articles : List Article) :
    serializeSummaryList articles ≠ "" := by
  rw [serializeSummaryList, String.append_assoc]
  exact head_append_ne_empty _ _ (by decide)

theorem lastPut_nil (k : String) : lastPut [] k = none := rfl

theorem lastPut_cons (p : String × String) (t : List (String × String))
    (k : String) :
    lastPut (p :: t) k = (lastPut t k).or (if p.1 = k then some p.2 else none) := by
  show t.foldl _ (if p.1 = k then some p.2 else none) = _
  rw [lastPut_foldl_acc]

/-- The key-value pairs a fully successful refresh writes, in issue order:
one full record per article, then the summary list. -/
def refreshWrites (articles : List Article) : List (String × String) :=
  articles.map (fun a => (articleKey a.slug, serializeArticle a))
    ++ [(summaryKey, serializeSummaryList articles)]

theorem refreshStore_eq (articles : List Article) (σ : Store) :
    refreshStore articles σ = applyPuts (refreshWrites articles) σ := by
  unfold refreshStore updateKVStore storeArticlesInKV storeArticleListSummary
  simp [noPutFail, fetchArticlesFromAPI, refreshWrites, applyPuts,
    List.foldl_append, List.foldl_map]

theorem lastPut_map_articles_none (articles : List Article) (s : String)
    (h : s ∉ articles.map Article.slug) :
    lastPut (articles.map fun a => (articleKey a.slug, serializeArticle a))
      (articleKey s) = none := by
  induction articles with
  | nil => rfl
  | cons b t ih =>
    have hs : s ≠ b.slug ∧ s ∉ t.map Article.slug := by
      rw [List.map_cons, List.mem_cons] at h; push_neg at h; exact h
    rw [List.map_cons, lastPut_cons, ih hs.2]
    have hne : articleKey b.slug ≠ articleKey s :=
      fun hk => hs.1 (articleKey_inj hk).symm
    simp [hne]

theorem lastPut_map_articles_mem (articles : List Article) (a : Article)
    (ha : a ∈ articles) (hnd : (articles.map Article.slug).Nodup) :
    lastPut (articles.map fun a => (articleKey a.slug, serializeArticle a))
      (articleKey a.slug) = some (serializeArticle a) := by
  induction articles with
  | nil => cases ha
  | cons b t ih =>
    rw [List.map_cons, List.nodup_cons] at hnd
    rw [List.map_cons, lastPut_cons]
    rcases List.mem_cons.mp ha with rfl | hat
    · rw [lastPut_map_articles_none t a.slug hnd.1]
      simp
    · rw [ih hat hnd.2]
      simp

theorem refreshStore_articleKey (articles : List Article) (σ : Store)
    (hnd : (articles.map Article.slug).Nodup) (a : Article)
    (ha : a ∈ articles) :
    refreshStore articles σ (articleKey a.slug) = some (serializeArticle a) := by
  rw [refreshStore_eq, applyPuts_apply, refreshWrites, lastPut_append]
  have h1 : lastPut [(summaryKey, serializeSummaryList articles)]
      (articleKey a.slug) = none := by
    rw [lastPut_cons]
    simp [lastPut_nil, Ne.symm (articleKey_ne_summaryKey a.slug)]
  rw [h1, lastPut_map_articles_mem articles a ha hnd]
  rfl

theorem refreshStore_summaryKey (articles : List Article) (σ : Store) :
    refreshStore articles σ summaryKey = some (serializeSummaryList articles) := by
  rw [refreshStore_eq, applyPuts_apply, refreshWrites, lastPut_append]
  have h1 : lastPut [(summaryKey, serializeSummaryList articles)] summaryKey
      = some (serializeSummaryList articles) := by
    rw [lastPut_cons]; simp [lastPut_nil]
  rw [h1]
  rfl

theorem refreshStore_stale (articles : List Article) (σ : Store) (s : String)
    (h : s ∉ articles.map Article.slug) :
    refreshStore articles σ (articleKey s) = σ (articleKey s) := by
  rw [refreshStore_eq]
  apply applyPuts_of_lastPut_none
  rw [refreshWrites, lastPut_append, lastPut_map_articles_none _ _ h, lastPut_cons]
  simp [lastPut_nil, Ne.symm (articleKey_ne_summaryKey s)]

theorem kvPut_keeps_some (k' v' k : String) (σ : Store)
    (h : ∃ v, σ k = some v) : ∃ w, kvPut k' v' σ k = some w := by
  unfold kvPut
  by_cases hk : k = k'
  · exact ⟨v', by simp [hk]⟩
  · obtain ⟨v, hv⟩ := h
    exact ⟨v, by simp [hk, hv]⟩

theorem foldl_condPut_keeps_some (articles : List Article) (pf : PutFails)
    (σ : Store) (k : String) (h : ∃ v, σ k = some v) :
    ∃ w, (articles.foldl
      (fun s a =>
        if pf (articleKey a.slug) then s
        else kvPut (articleKey a.slug) (serializeArticle a) s) σ) k = some w := by
  induction articles generalizing σ with
  | nil => exact h
  | cons b t ih =>
    show ∃ w, (t.foldl _ (if pf (articleKey b.slug) then σ else kvPut _ _ σ)) k = some w
    apply ih
    by_cases hc : pf (articleKey b.slug)
    · simpa [hc] using h
    · simpa [hc] using kvPut_keeps_some _ _ k σ h

theorem updateKVStore_no_delete (up : UpstreamResult) (σ : Store)
    ( pf : PutFails) (m k : String) (h : ∃ v, σ k = some v) :
    ∃ w, (updateKVStore up σ pf m).2.1 k = some w := by
  cases up with
  | success articles =>
    have h1 := foldl_condPut_keeps_some articles pf σ k h
    unfold updateKVStore storeArticlesInKV storeArticleListSummary
    simp only [fetchArticlesFromAPI]
    by_cases hok : articles.all (fun a => ! pf (articleKey a.slug))
    · by_cases hs : pf summaryKey
      · simp [hok, hs]
        exact h1
      · simp [hok, hs]
        exact kvPut_keeps_some _ _ k _ h1
    · simp [hok]
      exact h1
  | httpError s => exact h
  | networkError m' => exact h
  | parseError m' => exact h

/-- A concrete article used in witnesses and counterexamples. -/
def artA : Article :=
  { id := 1
  , created_at := "2024-01-01T00:00:00Z"
  , updated_at := "2024-01-02T00:00:00Z"
  , slug := "hello-world"
  , title := "Hello"
  , description := none
  , body := "Body text"
  , author_full_name := none
  , cover_img_src := none
  , cover_img_alt := none
  , is_active := true
  , published_date := "2024-01-01" }

/-- A second concrete article, inactive, used in witnesses. -/
def artB : Article :=
  { id := 2
  , created_at := "2024-02-01T00:00:00Z"
  , updated_at := "2024-02-02T00:00:00Z"
  , slug := "second-post"
  , title := "Second"
  , description := some "More words"
  , body := "Another body"
  , author_full_name := some "A. Author"
  , cover_img_src := some "/img/2.png"
  , cover_img_alt := some "cover"
  , is_active := false
  , published_date := "2024-02-01" }

/-- Dispatch structure of a refresh's store writes: one put, a batch of
puts issued concurrently (`Promise.all`), or sequential composition (an
`await` separating the two sides). -/
inductive WritePlan where
  | put (k v : String)
  | par (ws : List (String × String))
  | seq (p q : WritePlan)

/-- Keys written anywhere in a plan. -/
def WritePlan.keys : WritePlan → List String
  | .put k _ => [k]
  | .par ws => ws.map Prod.fst
  | .seq p q => p.keys ++ q.keys

/-- Whether the plan forces the write to `k1` to settle before the write
to `k2` is issued: true exactly when some sequential composition has `k1`
on its left and `k2` on its right. -/
def WritePlan.forces : WritePlan → String → String → Bool
  | .put _ _, _, _ => false
  | .par _, _, _ => false
  | .seq p q, k1, k2 =>
      (p.keys.contains k1 && q.keys.contains k2)
        || p.forces k1 k2 || q.forces k1 k2

/-- Store effect of running a plan with every put succeeding. -/
def WritePlan.run : WritePlan → Store → Store
  | .put k v, σ => kvPut k v σ
  | .par ws, σ => applyPuts ws σ
  | .seq p q, σ => q.run (p.run σ)

/-- Dispatch structure of `updateKVStore`'s writes on its success path, as
the code sequences them: `await storeArticlesInKV(...)` — a `Promise.all`
batch over the per-article keys — and only then, sequentially,
`await storeArticleListSummary(...)`'s single summary put. -/
def codeWritePlan (articles : List Article) : WritePlan :=
  .seq (.par (articles.map fun a => (articleKey a.slug, serializeArticle a)))
       (.put summaryKey (serializeSummaryList articles))

/-- Modelled from the spec (§4.1, §5): all per-article writes and the one
summary write issued as a single concurrent batch, no ordering dependency
between any of them.  Stated for comparison with `codeWritePlan`. -/
def specWritePlan (articles : List Article) : WritePlan :=
  .par ((articles.map fun a => (articleKey a.slug, serializeArticle a))
    ++ [(summaryKey, serializeSummaryList articles)])

theorem codeWritePlan_run (articles : List Article) (σ : Store) :
    (codeWritePlan articles).run σ = refreshStore articles σ := by
  rw [refreshStore_eq, refreshWrites]
  simp [codeWritePlan, WritePlan.run, applyPuts, List.foldl_append]

/-- Replace the `is_active` flag of an article. -/
def setActive (b : Bool) (a : Article) : Article := { a with is_active := b }

/-- Reassign every article's `is_active` flag according to `fl`. -/
def mapActive (fl : Article → Bool) (articles : List Article) : List Article :=
  articles.map fun a => setActive (fl a) a

theorem serializeSummaryList_mapActive (fl : Article → Bool)
    (articles : List Article) :
    serializeSummaryList (mapActive fl articles)
      = serializeSummaryList articles := by
  unfold serializeSummaryList mapActive
  simp only [List.map_map]
  rfl

theorem mapActive_slugs (fl : Article → Bool) (articles : List Article) :
    (mapActive fl articles).map Article.slug = articles.map Article.slug := by
  unfold mapActive
  simp only [List.map_map]
  rfl

theorem updateKVStore_all_ok (articles : List Article) (σ : Store)
    ( pf : PutFails) (m : String)
    (hok : (articles.all fun a => ! pf (articleKey a.slug)) = true)
    (hs : pf summaryKey = false) :
    updateKVStore (.success articles) σ pf m
      = (⟨200, "KV Store Updated"⟩,
         kvPut summaryKey (serializeSummaryList articles)
           (articles.foldl
             (fun s a =>
               if pf (articleKey a.slug) then s
               else kvPut (articleKey a.slug) (serializeArticle a) s) σ),
         (articles.map fun a => articleKey a.slug) ++ [summaryKey]) := by
  unfold updateKVStore storeArticlesInKV storeArticleListSummary
  simp [fetchArticlesFromAPI, hok, hs]

theorem updateKVStore_summary_fail (articles : List Article) (σ : Store)
    ( pf : PutFails) (m : String)
    (hok : (articles.all fun a => ! pf (articleKey a.slug)) = true)
    (hs : pf summaryKey = true) :
    updateKVStore (.success articles) σ pf m
      = (⟨500, "Error updating KV Store: " ++ m⟩,
         articles.foldl
           (fun s a =>
             if pf (articleKey a.slug) then s
             else kvPut (articleKey a.slug) (serializeArticle a) s) σ,
         (articles.map fun a => articleKey a.slug) ++ [summaryKey]) := by
  unfold updateKVStore storeArticlesInKV storeArticleListSummary
  simp [fetchArticlesFromAPI, hok, hs]

theorem updateKVStore_article_fail (articles : List Article) (σ : Store)
    ( pf : PutFails) (m : String)
    (hok : (articles.all fun a => ! pf (articleKey a.slug)) = false) :
    updateKVStore (.success articles) σ pf m
      = (⟨500, "Error updating KV Store: " ++ m⟩,
         articles.foldl
           (fun s a =>
             if pf (articleKey a.slug) then s
             else kvPut (articleKey a.slug) (serializeArticle a) s) σ,
         articles.map fun a => articleKey a.slug) := by
  unfold updateKVStore storeArticlesInKV storeArticleListSummary
  simp [fetchArticlesFromAPI, hok]

/-- C1 (Projection consistency): after a successful refresh with an
article set whose slugs are distinct (the §3 data-model invariant),
`getSummaryList` returns status 200 with exactly the serialized summary
projection of the set — one entry per article, in input order, each built
by `summaryOf`, which keeps only the seven summary fields — and for every
article of the set, `getArticleBySlug` on its slug returns status 200 with
the serialized full record. -/
theorem projection_consistency (articles : List Article) (σ : Store)
    (hnd : (articles.map Article.slug).Nodup) :
    (fetchArticleList (refreshStore articles σ) noGetFail).1
        = ⟨200, serializeSummaryList articles⟩
    ∧ ((articles.map summaryOf).map serializeSummary).length = articles.length
    ∧ ∀ a ∈ articles,
        (fetchArticleBySlug a.slug (refreshStore articles σ) noGetFail).1
          = ⟨200, serializeArticle a⟩ := by
  refine ⟨?_, by simp, ?_⟩
  · unfold fetchArticleList
    rw [refreshStore_summaryKey]
    simp [noGetFail, serializeSummaryList_ne_empty]
  · intro a ha
    unfold fetchArticleBySlug
    rw [refreshStore_articleKey articles σ hnd a ha]
    simp [noGetFail, serializeArticle_ne_empty]

/-- Witness for C1: the concrete two-article set, refreshed into the empty
store. -/
theorem projection_consistency_witness :
    (fetchArticleList (refreshStore [artA, artB] emptyStore) noGetFail).1
        = ⟨200, serializeSummaryList [artA, artB]⟩
    ∧ (fetchArticleBySlug artB.slug (refreshStore [artA, artB] emptyStore)
        noGetFail).1 = ⟨200, serializeArticle artB⟩ := by
  have h := projection_consistency [artA, artB] emptyStore (by decide)
  exact ⟨h.1, h.2.2 artB (by decide)⟩

set_option maxRecDepth 4000 in
/-- C2 counterexample: the code derives per-article keys with a hyphen,
`article-<slug>`, not `article:<slug>` as the claim states.  After a
refresh with the one-article set `[artA]` (slug `hello-world`), the store
holds nothing at `article:hello-world` while the full record sits at
`article-hello-world`. -/
theorem key_layout_cex :
    refreshStore [artA] emptyStore ("article:" ++ artA.slug) = none
    ∧ refreshStore [artA] emptyStore ("article-" ++ artA.slug)
        = some (serializeArticle artA) := by
  constructor
  · decide
  · decide

/-- C2 (amended: the slug-derived key is `article-<slug>`, not
`article:<slug>`): for a set with distinct slugs, a successful refresh
stores each article's serialized full record under the deterministic key
`article-<slug>`, stores the serialized summary projection of the whole
set under the single fixed key `articles-summary` (overwriting whatever
any prior store state held there), and the slug-derived namespace is
disjoint from the summary key. -/
theorem key_layout (articles : List Article) (σ : Store)
    (hnd : (articles.map Article.slug).Nodup) :
    (∀ a ∈ articles,
        refreshStore articles σ (articleKey a.slug) = some (serializeArticle a))
    ∧ refreshStore articles σ summaryKey = some (serializeSummaryList articles)
    ∧ ∀ s, articleKey s ≠ summaryKey :=
  ⟨fun a ha => refreshStore_articleKey articles σ hnd a ha,
   refreshStore_summaryKey articles σ,
   articleKey_ne_summaryKey⟩

set_option maxRecDepth 4000 in
/-- Witness for C2's amended statement at the one-article set `[artA]`. -/
theorem key_layout_witness :
    refreshStore [artA] emptyStore (articleKey artA.slug)
        = some (serializeArticle artA)
    ∧ refreshStore [artA] emptyStore summaryKey
        = some (serializeSummaryList [artA]) := by
  have h := key_layout [artA] emptyStore (by decide)
  exact ⟨h.1 artA (by decide), h.2.1⟩

/-- C3 (Fan-out completeness): when a refresh whose fetch succeeded
reports success (status 200) it issued exactly `N+1` puts — one per
article plus the summary put — and whenever any issued put fails, the
refresh responds with status 500. -/
theorem fanout_completeness (articles : List Article) (σ : Store)
    ( pf : PutFails) (m : String) :
    ((updateKVStore (.success articles) σ pf m).1.status = 200 →
       (updateKVStore (.success articles) σ pf m).2.2.length
         = articles.length + 1)
    ∧ ∀ k ∈ (updateKVStore (.success articles) σ pf m).2.2, pf k = true →
        (updateKVStore (.success articles) σ pf m).1.status = 500 := by
  by_cases hok : (articles.all fun a => ! pf (articleKey a.slug)) = true
  · by_cases hs : pf summaryKey = true
    · rw [updateKVStore_summary_fail articles σ pf m hok hs]
      exact ⟨fun h => absurd h (by simp), fun k hk hf => rfl⟩
    · rw [updateKVStore_all_ok articles σ pf m hok (by simpa using hs)]
      refine ⟨fun _ => by simp, fun k hk hf => ?_⟩
      exfalso
      rcases List.mem_append.mp hk with hmap | hsum
      · obtain ⟨a, ha, rfl⟩ := List.mem_map.mp hmap
        have hall := List.all_eq_true.mp hok a ha
        simp only [Bool.not_eq_true'] at hall
        exact absurd hf (by simp [hall])
      · have hk' : k = summaryKey := by simpa using hsum
        exact hs (hk' ▸ hf)
  · rw [updateKVStore_article_fail articles σ pf m (by simpa using hok)]
    exact ⟨fun h => absurd h (by simp), fun k hk hf => rfl⟩

/-- Witness for C3: the successful two-article refresh issues three puts. -/
theorem fanout_completeness_witness :
    (updateKVStore (.success [artA, artB]) emptyStore noPutFail "").2.2.length
      = [artA, artB].length + 1 :=
  (fanout_completeness [artA, artB] emptyStore noPutFail "").1 (by decide)

/-- C4 counterexample: with the summary key never written, the list read
does not return a NotFound outcome distinct from store unavailability —
it returns the same 500 `Failed to fetch article list` response that an
unreachable store produces, and its status is 500, not 404. -/
theorem miss_behavior_cex :
    (fetchArticleList emptyStore noGetFail).1
        = ⟨500, "Failed to fetch article list"⟩
    ∧ (fetchArticleList emptyStore noGetFail).1
        = (fetchArticleList emptyStore (fun _ => true)).1
    ∧ (fetchArticleList emptyStore noGetFail).1.status ≠ 404 := by
  refine ⟨rfl, rfl, by decide⟩

/-- C4 (amended): `getArticleBySlug` on an absent key returns 404
`Article not found` without touching the store, distinct from the 500
`Internal Server Error` produced when the store is unreachable; but
`getSummaryList` before any refresh returns a 500 response identical to
the one produced when the store is unreachable (the code collapses both
into its catch block), not a distinct NotFound. -/
theorem miss_behavior (σ : Store) (s : String)
    (habs : σ (articleKey s) = none) :
    fetchArticleBySlug s σ noGetFail = (⟨404, "Article not found"⟩, σ)
    ∧ (fetchArticleBySlug s σ (fun _ => true)).1
        = ⟨500, "Internal Server Error"⟩
    ∧ fetchArticleList emptyStore noGetFail
        = (⟨500, "Failed to fetch article list"⟩, emptyStore)
    ∧ (fetchArticleList emptyStore (fun _ => true)).1
        = (fetchArticleList emptyStore noGetFail).1 := by
  refine ⟨?_, rfl, rfl, rfl⟩
  unfold fetchArticleBySlug
  rw [habs]
  simp [noGetFail]

/-- Witness for C4's amended statement: the slug `nonexistent` against the
empty store. -/
theorem miss_behavior_witness :
    fetchArticleBySlug "nonexistent" emptyStore noGetFail
        = (⟨404, "Article not found"⟩, emptyStore)
    ∧ (fetchArticleBySlug "nonexistent" emptyStore (fun _ => true)).1
        = ⟨500, "Internal Server Error"⟩ := by
  have h := miss_behavior emptyStore "nonexistent" rfl
  exact ⟨h.1, h.2.1⟩

/-- C5 (Upstream failure isolation): when the upstream source answers with
a non-success status, the refresh responds 500 with the fetch error
message, the store is returned exactly as it was, and no put is issued. -/
theorem upstream_failure_isolation (code : Nat) (σ : Store)
    ( pf : PutFails) (m : String) :
    updateKVStore (.httpError code) σ pf m
      = (⟨500, "Error updating KV Store: API responded with status "
            ++ toString code⟩, σ, []) := rfl

/-- C6 (Idempotence of refresh): two successful refreshes in a row with
the same upstream article set leave the store observably identical to one
refresh — every key maps to the same bytes. -/
theorem refresh_idempotent (articles : List Article) (σ : Store) :
    refreshStore articles (refreshStore articles σ) = refreshStore articles σ := by
  simp only [refreshStore_eq]
  exact applyPuts_idem _ _

/-- C7 counterexample: in the code's dispatch structure for the set
`[artA]`, the per-article write must settle before the summary write is
issued — `updateKVStore` awaits `storeArticlesInKV` before it calls
`storeArticleListSummary` — so there is an ordering dependency between a
per-article write and the summary write, contradicting the claimed single
fan-out of all `N+1` writes. -/
theorem concurrent_dispatch_cex :
    (codeWritePlan [artA]).forces (articleKey artA.slug) summaryKey = true := by
  decide

/-- C7 (amended): within one refresh the per-article writes form one
concurrent batch with no ordering dependency among them, but the summary
write is issued only after every per-article write has settled; the
coordinator reports success (status 200) iff every issued write succeeds;
and running the dispatch plan reproduces the refresh's store effect. -/
theorem concurrent_dispatch (articles : List Article) (σ : Store)
    ( pf : PutFails) (m : String) :
    (∀ a ∈ articles, ∀ b ∈ articles,
        (codeWritePlan articles).forces (articleKey a.slug) (articleKey b.slug)
          = false)
    ∧ (∀ a ∈ articles,
        (codeWritePlan articles).forces (articleKey a.slug) summaryKey = true)
    ∧ ((updateKVStore (.success articles) σ pf m).1.status = 200 ↔
        ∀ k ∈ (updateKVStore (.success articles) σ pf m).2.2, pf k = false)
    ∧ (codeWritePlan articles).run σ = refreshStore articles σ := by
  refine ⟨?_, ?_, ?_, codeWritePlan_run articles σ⟩
  · intro a ha b hb
    simp [codeWritePlan, WritePlan.forces, WritePlan.keys,
      articleKey_ne_summaryKey b.slug]
  · intro a ha
    simp [codeWritePlan, WritePlan.forces, WritePlan.keys]
    exact ⟨a, ha, rfl⟩
  · by_cases hok : (articles.all fun a => ! pf (articleKey a.slug)) = true
    · by_cases hs : pf summaryKey = true
      · rw [updateKVStore_summary_fail articles σ pf m hok hs]
        refine iff_of_false (by simp) ?_
        intro hall
        exact absurd (hall summaryKey (by simp)) (by simp [hs])
      · rw [updateKVStore_all_ok articles σ pf m hok (by simpa using hs)]
        refine iff_of_true rfl ?_
        intro k hk
        rcases List.mem_append.mp hk with hmap | hsum
        · obtain ⟨a, ha, rfl⟩ := List.mem_map.mp hmap
          have hall := List.all_eq_true.mp hok a ha
          simpa using hall
        · have hk' : k = summaryKey := by simpa using hsum
          simpa [hk'] using hs
    · rw [updateKVStore_article_fail articles σ pf m (by simpa using hok)]
      refine iff_of_false (by simp) ?_
      intro hall
      rw [List.all_eq_true] at hok
      push_neg at hok
      obtain ⟨a, ha, hfa⟩ := hok
      have := hall (articleKey a.slug) (List.mem_map_of_mem _ ha)
      simp [this] at hfa

/-- Witness for C7's amended statement on the one-article set `[artB]`. -/
theorem concurrent_dispatch_witness :
    (codeWritePlan [artB]).forces (articleKey artB.slug) summaryKey = true
    ∧ (codeWritePlan [artB]).forces (articleKey artB.slug) (articleKey artB.slug)
        = false := by
  have h := concurrent_dispatch [artB] emptyStore noPutFail ""
  exact ⟨h.2.1 artB (by decide), h.1 artB (by decide) artB (by decide)⟩

/-- C8 counterexample: two fully successful refreshes writing different
numbers of articles (one vs two) produce the very same response — status
200, body `KV Store Updated` — so the refresh result does not report the
count of articles written. -/
theorem success_report_cex :
    (updateKVStore (.success [artA]) emptyStore noPutFail "").1
        = (updateKVStore (.success [artA, artB]) emptyStore noPutFail "").1
    ∧ [artA].length ≠ [artA, artB].length :=
  ⟨by decide, by decide⟩

/-- C8 (amended: on full success the refresh reports the fixed message
`KV Store Updated` with status 200; no count of articles written is
included in the result): every refresh over a fetched set that reports
success has exactly this response. -/
theorem success_report (articles : List Article) (σ : Store)
    ( pf : PutFails) (m : String)
    (h : (updateKVStore (.success articles) σ pf m).1.status = 200) :
    (updateKVStore (.success articles) σ pf m).1
      = ⟨200, "KV Store Updated"⟩ := by
  by_cases hok : (articles.all fun a => ! pf (articleKey a.slug)) = true
  · by_cases hs : pf summaryKey = true
    · rw [updateKVStore_summary_fail articles σ pf m hok hs] at h
      exact absurd h (by simp)
    · rw [updateKVStore_all_ok articles σ pf m hok (by simpa using hs)]
  · rw [updateKVStore_article_fail articles σ pf m (by simpa using hok)] at h
    exact absurd h (by simp)

/-- Witness for C8's amended statement at the one-article set `[artB]`. -/
theorem success_report_witness :
    (updateKVStore (.success [artB]) emptyStore noPutFail "").1
      = ⟨200, "KV Store Updated"⟩ :=
  success_report [artB] emptyStore noPutFail "" (by decide)

/-- C9 (Stale-record persistence): a refresh leaves every per-slug key
whose slug does not occur in the fetched set exactly as it was, and no
refresh — whatever the upstream outcome or injected write failures — ever
deletes a key: any key holding a value beforehand still holds one
afterwards.  (The read operations return the store unchanged by
construction.) -/
theorem stale_records (articles : List Article) (σ : Store) (s : String)
    (h : s ∉ articles.map Article.slug) :
    refreshStore articles σ (articleKey s) = σ (articleKey s)
    ∧ ∀ (up : UpstreamResult) ( pf : PutFails) (m k : String),
        (∃ v, σ k = some v) →
        ∃ w, (updateKVStore up σ pf m).2.1 k = some w :=
  ⟨refreshStore_stale articles σ s h,
   fun up pf m k hv => updateKVStore_no_delete up σ pf m k hv⟩

/-- A store already holding one stale per-slug record, used as the C9
witness state. -/
def staleStore : Store := kvPut (articleKey "old-post") "old-record" emptyStore

/-- Witness for C9: refreshing `[artA]` over a store holding a record for
the removed slug `old-post` leaves that record untouched. -/
theorem stale_records_witness :
    refreshStore [artA] staleStore (articleKey "old-post")
        = staleStore (articleKey "old-post")
    ∧ ∃ w, (updateKVStore (.success [artA]) staleStore noPutFail "").2.1
        (articleKey "old-post") = some w := by
  have h := stale_records [artA] staleStore "old-post" (by decide)
  exact ⟨h.1, h.2 (.success [artA]) noPutFail "" (articleKey "old-post")
    ⟨"old-record", by decide⟩⟩

theorem mapActive_attempt_keys (fl : Article → Bool) (articles : List Article) :
    (mapActive fl articles).map (fun a => articleKey a.slug)
      = articles.map (fun a => articleKey a.slug) := by
  unfold mapActive
  simp only [List.map_map]
  rfl

/-- C10 (the `is_active` flag is never consulted): reassigning every
article's `is_active` flag changes neither the serialized summary list
(the projection drops the flag) nor the keys the refresh writes, and after
a refresh every stored record — in particular one with
`is_active = false` — is served by `getArticleBySlug` with status 200 and
its full serialized bytes, exactly as an active record is. -/
theorem inactive_articles_reachable (articles : List Article)
    (fl : Article → Bool) (σ : Store)
    (hnd : (articles.map Article.slug).Nodup) :
    serializeSummaryList (mapActive fl articles) = serializeSummaryList articles
    ∧ (updateKVStore (.success (mapActive fl articles)) σ noPutFail "").2.2
        = (updateKVStore (.success articles) σ noPutFail "").2.2
    ∧ ∀ a ∈ articles,
        (fetchArticleBySlug a.slug (refreshStore (mapActive fl articles) σ)
            noGetFail).1
          = ⟨200, serializeArticle (setActive (fl a) a)⟩ := by
  refine ⟨serializeSummaryList_mapActive fl articles, ?_, ?_⟩
  · rw [updateKVStore_all_ok (mapActive fl articles) σ noPutFail ""
        (by simp [noPutFail]) rfl,
      updateKVStore_all_ok articles σ noPutFail "" (by simp [noPutFail]) rfl]
    simp [mapActive_attempt_keys]
  · intro a ha
    have hnd' : ((mapActive fl articles).map Article.slug).Nodup := by
      rw [mapActive_slugs]; exact hnd
    have ha' : setActive (fl a) a ∈ mapActive fl articles :=
      List.mem_map_of_mem _ ha
    have hval : refreshStore (mapActive fl articles) σ (articleKey a.slug)
        = some (serializeArticle (setActive (fl a) a)) :=
      refreshStore_articleKey (mapActive fl articles) σ hnd'
        (setActive (fl a) a) ha'
    unfold fetchArticleBySlug
    rw [hval]
    simp [noGetFail, serializeArticle_ne_empty]

/-- Witness for C10: `artA` forced inactive is still stored and served in
full, and the summary bytes are unchanged by the flag flip. -/
theorem inactive_articles_reachable_witness :
    (fetchArticleBySlug artA.slug
        (refreshStore (mapActive (fun _ => false) [artA]) emptyStore)
        noGetFail).1
      = ⟨200, serializeArticle (setActive false artA)⟩
    ∧ serializeSummaryList (mapActive (fun _ => false) [artA])
        = serializeSummaryList [artA] := by
  have h := inactive_articles_reachable [artA] (fun _ => false) emptyStore
    (by decide)
  exact ⟨h.2.2 artA (by decide), h.1⟩
